import Mathlib

/-!
Verification of the covid19 data fetcher (`src/app.js`) against its
natural-language specification.

The development shallowly embeds the aggregation core
(`getCaseCount`, `getCountryNamesArray`, `createCountryObjects`,
`populateCountryObjects`, `getLastUpdatedBySourceTime`), the snapshot
locator (`downloadCsvFile`), and the orchestrator (`init`) as executable
Lean functions.  JavaScript numbers used as counters are embedded as `Int`
(all arithmetic here stays far below 2^53, so no overflow modelling is
needed); thrown exceptions become `Except AppError`; the file system and
the network are passed explicitly (a list of staged file names, a fetch
oracle indexed by the number of days looked back).
-/

namespace CovidFetcher

/-- Modelled from the spec: `constants.js` is not part of the sources;
the worldwide sentinel name is given in the spec (§6). -/
def WORLDWIDE : String := "Worldwide"

/-- Modelled from the spec: column-name constant (`constants.js` missing),
value taken from the end-to-end scenario header (§8). -/
def COL_COUNTRY : String := "Country_Region"

/-- Modelled from the spec: column-name constant (`constants.js` missing). -/
def COL_DEATHS : String := "Deaths"

/-- Modelled from the spec: column-name constant (`constants.js` missing). -/
def COL_CONFIRMED : String := "Confirmed"

/-- Modelled from the spec: column-name constant (`constants.js` missing). -/
def COL_ACTIVE : String := "Active"

/-- Modelled from the spec: column-name constant (`constants.js` missing). -/
def COL_RECOVERED : String := "Recovered"

/-- Modelled from the spec: column-name constant (`constants.js` missing). -/
def COL_LAST_UPDATE : String := "Last_Update"

/-- A parsed CSV row: an association list from column name to field value,
the embedding of the duck-typed row objects produced by `csvtojson`. -/
abbrev Row := List (String × String)

/-- `row[columnName]` in JavaScript: `some` field value, or `none` for
`undefined` when the column is absent. -/
def rowLookup (row : Row) (col : String) : Option String :=
  List.lookup col row

/-- `row[Constants.COL_COUNTRY]` used as an object key: JavaScript coerces
`undefined` to the property key `"undefined"`, so a missing country column
consistently maps to that key in both enumeration and population. -/
def rowCountryKey (row : Row) : String :=
  (rowLookup row COL_COUNTRY).getD "undefined"

/-- Characters treated as leading whitespace by JavaScript `parseInt`. -/
def jsWhitespace (c : Char) : Bool :=
  c = ' ' || c = '\t' || c = '\n' || c = '\r' || c = '\x0b' || c = '\x0c'

/-- Hexadecimal digit test, for the `0x` branch of radix-free `parseInt`. -/
def isHexDigitChar (c : Char) : Bool :=
  (('0' ≤ c && c ≤ '9') || ('a' ≤ c && c ≤ 'f') || ('A' ≤ c && c ≤ 'F'))

/-- Value of one hexadecimal digit. -/
def hexDigitVal (c : Char) : Nat :=
  if '0' ≤ c && c ≤ '9' then c.toNat - '0'.toNat
  else if 'a' ≤ c && c ≤ 'f' then c.toNat - 'a'.toNat + 10
  else c.toNat - 'A'.toNat + 10

/-- Decimal value of a digit string. -/
def digitsToNat (l : List Char) : Nat :=
  l.foldl (fun n c => n * 10 + (c.toNat - '0'.toNat)) 0

/-- Hexadecimal value of a hex-digit string. -/
def hexDigitsToNat (l : List Char) : Nat :=
  l.foldl (fun n c => n * 16 + hexDigitVal c) 0

/-- JavaScript `parseInt(s)` (radix argument omitted): skip leading
whitespace, read an optional sign, then either a `0x`/`0X` hexadecimal
prefix or the longest run of decimal digits; trailing characters are
ignored; `none` stands for `NaN` when no digit can be read. -/
def jsParseInt (s : String) : Option Int :=
  let cs := s.data.dropWhile jsWhitespace
  let signed : Int × List Char :=
    match cs with
    | '-' :: rest => (-1, rest)
    | '+' :: rest => (1, rest)
    | _ => (1, cs)
  let sign := signed.1
  let body := signed.2
  match body with
  | '0' :: x :: rest =>
    if x = 'x' || x = 'X' then
      let ds := rest.takeWhile isHexDigitChar
      if ds = [] then none else some (sign * (hexDigitsToNat ds : Int))
    else
      some (sign * (digitsToNat (body.takeWhile Char.isDigit) : Int))
  | _ =>
    let ds := body.takeWhile Char.isDigit
    if ds = [] then none else some (sign * (digitsToNat ds : Int))

/-- `getCaseCount(row, columnName)` from `populateCountryObjects`:
`parseInt` the field (a missing field is `undefined`, which `parseInt`
turns into `NaN`), replace `NaN` by `0`, and replace a negative value by
its absolute value. -/
def getCaseCount (row : Row) (col : String) : Int :=
  let caseValue : Option Int :=
    match rowLookup row col with
    | none => none
    | some s => jsParseInt s
  match caseValue with
  | none => 0
  | some v => if v < 0 then -v else v

/-- Modelled from the spec: `country.js` is not part of the sources.  The
spec (§3) describes the accumulator as a country name, four integer
counters initialised to 0 and mutated only by additive increments, and one
shared last-updated timestamp.  The timestamp is kept as the raw source
string (its calendar parsing lives in the external `moment` library). -/
structure Country where
  name : String
  confirmed : Int
  deaths : Int
  recovered : Int
  active : Int
  lastUpdatedBySourceAt : Option String
  deriving DecidableEq

/-- The four `incrementX` setters of `country.js`, taken together
(deaths, confirmed, active, recovered — the order they are called in
`populateCountryObjects`). -/
def Country.increment (co : Country) (d c a r : Int) : Country :=
  { co with deaths := co.deaths + d, confirmed := co.confirmed + c,
            active := co.active + a, recovered := co.recovered + r }

/-- A fresh accumulator as built in `createCountryObjects`:
`new Country()` + `setName` + `setLastUpdatedBySourceAt`. -/
def mkCountry (n : String) (ts : Option String) : Country :=
  ⟨n, 0, 0, 0, 0, ts⟩

/-- `this.countryObjects`: an object keyed by country name, embedded as an
association list in insertion order (keys are unique by construction). -/
abbrev CountryMap := List (String × Country)

/-- The error taxonomy of spec §7.  `fileNotFound` stands for the untyped
ENOENT rejection of reading a deleted staging file; `emptySnapshot` for
the untyped `TypeError` thrown by `csvRows[0]` on an empty row list. -/
inductive AppError where
  | notFound
  | fileNotFound
  | malformedInput
  | emptySnapshot
  | internalConsistency
  deriving DecidableEq

/-- First-occurrence deduplication, the embedding of
`[...new Set(countryNames)]`. -/
def firstDedupAux (seen : List String) : List String → List String
  | [] => []
  | x :: xs =>
    if x ∈ seen then firstDedupAux seen xs
    else x :: firstDedupAux (x :: seen) xs

/-- `[...new Set(l)]`: keep the first occurrence of every element. -/
def firstDedup (l : List String) : List String :=
  firstDedupAux [] l

/-- `getCountryNamesArray()`: every row's country value, then the
worldwide sentinel, deduplicated keeping first occurrences. -/
def getCountryNamesArray (rows : List Row) : List String :=
  firstDedup (rows.map rowCountryKey ++ [WORLDWIDE])

/-- `getLastUpdatedBySourceTime()`: reads `csvRows[0][COL_LAST_UPDATE]`.
On an empty row list the JavaScript indexing throws (`csvRows[0]` is
`undefined`), embedded as the `emptySnapshot` error of the spec taxonomy;
otherwise the raw field string (possibly absent) is kept — its conversion
to a UTC `Date` happens in the external `moment` library and no claim
depends on it. -/
def getLastUpdatedBySourceTime : List Row → Except AppError (Option String)
  | [] => .error .emptySnapshot
  | row :: _ => .ok (rowLookup row COL_LAST_UPDATE)

/-- `createCountryObjects()`: one zeroed accumulator per distinct name,
all stamped with the single shared timestamp. -/
def createCountryObjects (rows : List Row) : Except AppError CountryMap :=
  let names := getCountryNamesArray rows
  match getLastUpdatedBySourceTime rows with
  | .error e => .error e
  | .ok ts => .ok (names.map (fun n => (n, mkCountry n ts)))

/-- `this.countryObjects[name].incrementX(...)`: update the (unique) entry
with the given key; `none` when the key is absent, where the JavaScript
would throw a `TypeError` on the `undefined` lookup. -/
def updateCountry : CountryMap → String → Int → Int → Int → Int → Option CountryMap
  | [], _, _, _, _, _ => none
  | (k, co) :: rest, n, d, c, a, r =>
    if k = n then some ((k, co.increment d c a r) :: rest)
    else (updateCountry rest n d c a r).map (fun m => (k, co) :: m)

/-- The four running totals `totalDeaths`, `totalConfirmed`,
`totalActive`, `totalRecovered` of the `App` instance. -/
@[ext] structure Totals where
  deaths : Int
  confirmed : Int
  active : Int
  recovered : Int
  deriving DecidableEq

/-- Componentwise sum of totals. -/
def Totals.add (t u : Totals) : Totals :=
  ⟨t.deaths + u.deaths, t.confirmed + u.confirmed,
   t.active + u.active, t.recovered + u.recovered⟩

/-- The cleaned counts contributed by a single row, in the column order
used by the source (deaths, confirmed, active, recovered). -/
def rowTotals (row : Row) : Totals :=
  ⟨getCaseCount row COL_DEATHS, getCaseCount row COL_CONFIRMED,
   getCaseCount row COL_ACTIVE, getCaseCount row COL_RECOVERED⟩

/-- Total cleaned counts of a row sequence. -/
def listTotals (rows : List Row) : Totals :=
  rows.foldr (fun r t => (rowTotals r).add t) ⟨0, 0, 0, 0⟩

/-- The `csvRows.forEach` loop of `populateCountryObjects`: fold each
row's cleaned counts into its country's accumulator and into the four
running totals. -/
def populateRows (m : CountryMap) (t : Totals) :
    List Row → Except AppError (CountryMap × Totals)
  | [] => .ok (m, t)
  | row :: rest =>
    let countryName := rowCountryKey row
    let deaths := getCaseCount row COL_DEATHS
    let confirmed := getCaseCount row COL_CONFIRMED
    let active := getCaseCount row COL_ACTIVE
    let recovered := getCaseCount row COL_RECOVERED
    let t2 : Totals := ⟨t.deaths + deaths, t.confirmed + confirmed,
                        t.active + active, t.recovered + recovered⟩
    match updateCountry m countryName deaths confirmed active recovered with
    | none => .error .internalConsistency
    | some m2 => populateRows m2 t2 rest

/-- `populateCountryObjects()`: run the row loop from zero totals, then
add the four totals to the `"Worldwide"` accumulator. -/
def populateCountryObjects (m : CountryMap) (rows : List Row) :
    Except AppError CountryMap :=
  match populateRows m ⟨0, 0, 0, 0⟩ rows with
  | .error e => .error e
  | .ok (m2, t) =>
    match updateCountry m2 WORLDWIDE t.deaths t.confirmed t.active t.recovered with
    | none => .error .internalConsistency
    | some m3 => .ok m3

/-- Sum of the four counters over all non-worldwide accumulators. -/
def sumCounters : CountryMap → Totals
  | [] => ⟨0, 0, 0, 0⟩
  | (k, co) :: rest =>
    let t := sumCounters rest
    if k = WORLDWIDE then t
    else ⟨t.deaths + co.deaths, t.confirmed + co.confirmed,
          t.active + co.active, t.recovered + co.recovered⟩

/-- The (confirmed, deaths, recovered, active) counter quadruple of an
accumulator, matching the order used by the spec's scenarios. -/
def counters (co : Country) : Int × Int × Int × Int :=
  (co.confirmed, co.deaths, co.recovered, co.active)

/-- Split a character list at every occurrence of the separator. -/
def splitOnChar (sep : Char) : List Char → List (List Char)
  | [] => [[]]
  | c :: cs =>
    let r := splitOnChar sep cs
    if c = sep then [] :: r
    else
      match r with
      | [] => [[c]]
      | g :: gs => (c :: g) :: gs

/-- Split a string at every occurrence of the separator character. -/
def splitStr (sep : Char) (s : String) : List String :=
  (splitOnChar sep s.data).map String.mk

/-- Modelled from the spec: the RowParser is the external `csvtojson`
library (§4.2) — the first line is a header of column names and every
later non-empty line becomes one row keyed by those names, in input
order. -/
def parseCsv (content : String) : List Row :=
  match splitStr '\n' content with
  | [] => []
  | header :: rest =>
    let cols := splitStr ',' header
    (rest.filter (fun l => l ≠ "")).map (fun line => cols.zip (splitStr ',' line))

/-- Civil date (year, month, day) of a day number counted from 1970-01-01
(Gregorian), the arithmetic behind `moment().subtract(i, days)`. -/
def civilFromDays (z0 : Nat) : Nat × Nat × Nat :=
  let z := z0 + 719468
  let era := z / 146097
  let doe := z % 146097
  let yoe := (doe - doe / 1460 + doe / 36524 - doe / 146096) / 365
  let y := yoe + era * 400
  let doy := doe - (365 * yoe + yoe / 4 - yoe / 100)
  let mp := (5 * doy + 2) / 153
  let d := doy - (153 * mp + 2) / 5 + 1
  let m := if mp < 10 then mp + 3 else mp - 9
  (if m ≤ 2 then y + 1 else y, m, d)

/-- Two-digit zero padding of a day or month number. -/
def pad2 (n : Nat) : String :=
  if n < 10 then "0" ++ toString n else toString n

/-- `format(MM-DD-YYYY)` of the day numbered `dayNum` (days since
1970-01-01). -/
def mmddyyyy (dayNum : Nat) : String :=
  let ymd := civilFromDays dayNum
  pad2 ymd.2.1 ++ "-" ++ pad2 ymd.2.2 ++ "-" ++ toString ymd.1

/-- `Moment().subtract(i, days).format(MM-DD-YYYY) + ".csv"`: the staging
file name attempted `i` days back from `today` (a day number). -/
def csvFileNameFor (today i : Nat) : String :=
  mmddyyyy (today - i) ++ ".csv"

/-- `Fs.createWriteStream`: a file of that name now exists in the staging
directory (overwriting any previous one). -/
def writeFile (staged : List String) (name : String) : List String :=
  staged.filter (fun f => f ≠ name) ++ [name]

/-- `Fs.unlinkSync`: the file of that name no longer exists. -/
def deleteFile (staged : List String) (name : String) : List String :=
  staged.filter (fun f => f ≠ name)

/-- Result of the lookback loop: either the first successful candidate's
file name and fetched content, or normal fall-through after the window is
exhausted (the source logs a warning and returns — it does not throw). -/
inductive LocateOutcome where
  | success (fileName : String) (content : String)
  | exhausted
  deriving DecidableEq

/-- Observable result of one `downloadCsvFile()` run: its outcome, the
staging files left on disk, the file names probed in order, and how many
fetch attempts were made. -/
structure LocateRun where
  outcome : LocateOutcome
  staged : List String
  probed : List String
  attempts : Nat
  deriving DecidableEq

/-- `tries = 90` in `downloadCsvFile`. -/
def tries : Nat := 90

/-- The counted `for` loop of `downloadCsvFile`: at offset `i` days back,
stage a file of the candidate's name, attempt the fetch (`fetch i` is
`some content` on success), return at the first success, and on failure
unlink the staged file before moving one day further back. -/
def downloadLoop (fetch : Nat → Option String) (today : Nat) :
    Nat → Nat → List String → List String → Nat → LocateRun
  | _, 0, staged, probed, attempts => ⟨.exhausted, staged, probed, attempts⟩
  | i, rem + 1, staged, probed, attempts =>
    let name := csvFileNameFor today i
    let staged1 := writeFile staged name
    match fetch i with
    | some content => ⟨.success name content, staged1, probed ++ [name], attempts + 1⟩
    | none =>
      downloadLoop fetch today (i + 1) rem (deleteFile staged1 name)
        (probed ++ [name]) (attempts + 1)

/-- `downloadCsvFile()`: probe backward from the current date with an
empty staging directory, up to `tries` attempts. -/
def downloadCsvFile (fetch : Nat → Option String) (today : Nat) : LocateRun :=
  downloadLoop fetch today 0 tries [] [] 0

/-- The pipeline stages of `init()`. -/
inductive Stage where
  | locate
  | parse
  | aggregate
  | persist
  deriving DecidableEq

/-- `setRowsData()`: read the file named `csvFileName` back from staging
and parse it.  After an exhausted lookback the last attempted file was
unlinked, so the read rejects with ENOENT (`fileNotFound`); after a
success the staged file holds the fetched content. -/
def setRowsData (run : LocateRun) : Except AppError (List Row) :=
  match run.outcome with
  | .exhausted => .error .fileNotFound
  | .success _ content => .ok (parseCsv content)

/-- `init()`: download, read rows, create and populate the accumulators,
then save.  Each stage is awaited; a rejection aborts the remaining
stages.  The result records the stages entered, the overall outcome and
the map handed to the persistence collaborator (`none` when
`saveDataToDb` was never reached). -/
def initApp (fetch : Nat → Option String) (today : Nat) :
    List Stage × Except AppError Unit × Option CountryMap :=
  let run := downloadCsvFile fetch today
  match setRowsData run with
  | .error e => ([.locate, .parse], .error e, none)
  | .ok rows =>
    match createCountryObjects rows with
    | .error e => ([.locate, .parse, .aggregate], .error e, none)
    | .ok m0 =>
      match populateCountryObjects m0 rows with
      | .error e => ([.locate, .parse, .aggregate], .error e, none)
      | .ok m => ([.locate, .parse, .aggregate, .persist], .ok (), some m)

/-- `this.countryObjects[name]`: look up an accumulator by key. -/
def findCountry : CountryMap → String → Option Country
  | [], _ => none
  | (k, co) :: rest, n => if k = n then some co else findCountry rest n

/-- All four counters of an accumulator are non-negative. -/
def nonnegCounters (co : Country) : Prop :=
  0 ≤ co.confirmed ∧ 0 ≤ co.deaths ∧ 0 ≤ co.recovered ∧ 0 ≤ co.active

instance (co : Country) : Decidable (nonnegCounters co) := by
  unfold nonnegCounters; infer_instance

/-- The file names probed by `count` consecutive attempts starting `i`
days back from `today`: one candidate date per day, strictly backward. -/
def probeNames (today : Nat) : Nat → Nat → List String
  | _, 0 => []
  | i, count + 1 => csvFileNameFor today i :: probeNames today (i + 1) count

/-- Day number (days since 1970-01-01) of 2021-01-05, the concrete
current date used for witnesses. -/
def today0 : Nat := 18632

/-- A simulated source where every lookback attempt fails. -/
def allFail : Nat → Option String := fun _ => none

/-- A simulated source where only the fetch for the date 3 days back
succeeds. -/
def fetchOnly3 : Nat → Option String :=
  fun i => if i = 3 then some "snapshot-3-days-back" else none

/-- A simulated source whose snapshot is an empty document, so the parsed
row sequence is empty. -/
def fetchEmptyCsv : Nat → Option String := fun _ => some ""

/-- The end-to-end scenario input of spec §8. -/
def scenarioCsv : String :=
  "Country_Region,Confirmed,Deaths,Recovered,Active,Last_Update\nUSA,100,5,-50,45,2021-01-01 04:00:00\nItaly,abc,2,10,18,2021-01-01 04:00:00"

/-- The parsed rows of the end-to-end scenario. -/
def scenarioRows : List Row := parseCsv scenarioCsv

/-- Aggregation (creation followed by population) on the scenario rows. -/
def scenarioAgg : Except AppError CountryMap :=
  match createCountryObjects scenarioRows with
  | .error e => .error e
  | .ok m0 => populateCountryObjects m0 scenarioRows

/-- The final accumulator map of the end-to-end scenario. -/
def mScenario : CountryMap := scenarioAgg.toOption.getD []

/-- A one-row input whose country field is the worldwide sentinel itself. -/
def rowsWW : List Row := [[(COL_COUNTRY, WORLDWIDE), (COL_CONFIRMED, "5")]]

/-- The accumulator map created for `rowsWW`. -/
def mWW0 : CountryMap := (createCountryObjects rowsWW).toOption.getD []

/-- The populated accumulator map for `rowsWW`. -/
def mWW : CountryMap := (populateCountryObjects mWW0 rowsWW).toOption.getD []

/-- A small ordinary one-row input used by witnesses. -/
def rowsW1 : List Row :=
  [[(COL_COUNTRY, "USA"), (COL_CONFIRMED, "3"), (COL_DEATHS, "1"),
    (COL_ACTIVE, "2"), (COL_RECOVERED, "0"), (COL_LAST_UPDATE, "2021-01-01 04:00:00")]]

/-- The accumulator map created for `rowsW1`. -/
def mW0 : CountryMap := (createCountryObjects rowsW1).toOption.getD []

/-- The populated accumulator map for `rowsW1`. -/
def mW1 : CountryMap := (populateCountryObjects mW0 rowsW1).toOption.getD []

lemma getCaseCount_of_parse_none (row : Row) (col : String)
    (h : (rowLookup row col).bind jsParseInt = none) :
    getCaseCount row col = 0 := by
  unfold getCaseCount
  cases hl : rowLookup row col with
  | none => simp
  | some s =>
    rw [hl] at h
    simp only [Option.some_bind] at h
    simp [h]

lemma getCaseCount_of_parse_some (row : Row) (col : String) (v : Int)
    (h : (rowLookup row col).bind jsParseInt = some v) :
    getCaseCount row col = if v < 0 then -v else v := by
  unfold getCaseCount
  cases hl : rowLookup row col with
  | none => rw [hl] at h; simp at h
  | some s =>
    rw [hl] at h
    simp only [Option.some_bind] at h
    simp [h]

lemma getCaseCount_nonneg (row : Row) (col : String) :
    0 ≤ getCaseCount row col := by
  cases hb : (rowLookup row col).bind jsParseInt with
  | none => rw [getCaseCount_of_parse_none row col hb]
  | some v =>
    rw [getCaseCount_of_parse_some row col v hb]
    split <;> omega

lemma updateCountry_cons_inv {k : String} {co : Country} {rest : CountryMap}
    {n : String} {d c a r : Int} {m2 : CountryMap}
    (h : updateCountry ((k, co) :: rest) n d c a r = some m2) :
    (k = n ∧ m2 = (k, co.increment d c a r) :: rest) ∨
    (k ≠ n ∧ ∃ m3, updateCountry rest n d c a r = some m3 ∧ m2 = (k, co) :: m3) := by
  by_cases hk : k = n
  · left
    refine ⟨hk, ?_⟩
    rw [updateCountry, if_pos hk] at h
    exact (Option.some.injEq _ _ ▸ h).symm
  · right
    refine ⟨hk, ?_⟩
    rw [updateCountry, if_neg hk] at h
    cases hr : updateCountry rest n d c a r with
    | none => rw [hr] at h; simp at h
    | some m3 =>
      rw [hr] at h
      simp at h
      exact ⟨m3, rfl, h.symm⟩

lemma updateCountry_find_self {m : CountryMap} {n : String} {d c a r : Int}
    {m2 : CountryMap} (h : updateCountry m n d c a r = some m2) :
    findCountry m2 n = (findCountry m n).map (fun co => co.increment d c a r) := by
  induction m generalizing m2 with
  | nil => simp [updateCountry] at h
  | cons p rest ih =>
    obtain ⟨k, co⟩ := p
    rcases updateCountry_cons_inv h with ⟨hk, hm⟩ | ⟨hk, m3, hup, hm⟩
    · subst hk hm
      simp [findCountry]
    · subst hm
      simp only [findCountry, if_neg hk]
      exact ih hup

lemma updateCountry_find_other {m : CountryMap} {n x : String} {d c a r : Int}
    {m2 : CountryMap} (h : updateCountry m n d c a r = some m2) (hx : x ≠ n) :
    findCountry m2 x = findCountry m x := by
  induction m generalizing m2 with
  | nil => simp [updateCountry] at h
  | cons p rest ih =>
    obtain ⟨k, co⟩ := p
    rcases updateCountry_cons_inv h with ⟨hk, hm⟩ | ⟨hk, m3, hup, hm⟩
    · subst hk hm
      have : k ≠ x := fun hkx => hx (hkx ▸ rfl)
      simp [findCountry, if_neg this]
    · subst hm
      simp only [findCountry]
      split
      · rfl
      · exact ih hup

lemma updateCountry_sum_ne {m : CountryMap} {n : String} {d c a r : Int}
    {m2 : CountryMap} (h : updateCountry m n d c a r = some m2)
    (hne : n ≠ WORLDWIDE) :
    sumCounters m2 = (sumCounters m).add ⟨d, c, a, r⟩ := by
  induction m generalizing m2 with
  | nil => simp [updateCountry] at h
  | cons p rest ih =>
    obtain ⟨k, co⟩ := p
    rcases updateCountry_cons_inv h with ⟨hk, hm⟩ | ⟨hk, m3, hup, hm⟩
    · subst hm
      have hkw : k ≠ WORLDWIDE := fun hww => hne (hk.symm.trans hww)
      simp only [sumCounters, if_neg hkw]
      ext <;> simp [Country.increment, Totals.add] <;> ring
    · subst hm
      simp only [sumCounters]
      rw [ih hup]
      split
      · rfl
      · ext <;> simp [Totals.add] <;> ring

lemma updateCountry_sum_ww {m : CountryMap} {d c a r : Int}
    {m2 : CountryMap} (h : updateCountry m WORLDWIDE d c a r = some m2) :
    sumCounters m2 = sumCounters m := by
  induction m generalizing m2 with
  | nil => simp [updateCountry] at h
  | cons p rest ih =>
    obtain ⟨k, co⟩ := p
    rcases updateCountry_cons_inv h with ⟨hk, hm⟩ | ⟨hk, m3, hup, hm⟩
    · subst hk hm
      simp [sumCounters]
    · subst hm
      simp only [sumCounters]
      rw [ih hup]

lemma updateCountry_nonneg {m : CountryMap} {n : String} {d c a r : Int}
    {m2 : CountryMap} (h : updateCountry m n d c a r = some m2)
    (hm : ∀ p ∈ m, nonnegCounters p.2)
    (hd : 0 ≤ d) (hc : 0 ≤ c) (ha : 0 ≤ a) (hr : 0 ≤ r) :
    ∀ p ∈ m2, nonnegCounters p.2 := by
  induction m generalizing m2 with
  | nil => simp [updateCountry] at h
  | cons p rest ih =>
    obtain ⟨k, co⟩ := p
    have hco : nonnegCounters co := hm (k, co) (by simp)
    have hrest : ∀ q ∈ rest, nonnegCounters q.2 := fun q hq => hm q (by simp [hq])
    rcases updateCountry_cons_inv h with ⟨hk, hmm⟩ | ⟨hk, m3, hup, hmm⟩
    · subst hk hmm
      intro q hq
      rcases List.mem_cons.mp hq with hq1 | hq2
      · subst hq1
        obtain ⟨h1, h2, h3, h4⟩ := hco
        exact ⟨by simp [Country.increment]; omega, by simp [Country.increment]; omega,
               by simp [Country.increment]; omega, by simp [Country.increment]; omega⟩
      · exact hrest q hq2
    · subst hmm
      intro q hq
      rcases List.mem_cons.mp hq with hq1 | hq2
      · subst hq1; exact hco
      · exact ih hup hrest q hq2

lemma mem_firstDedupAux (a : String) :
    ∀ (l seen : List String), a ∈ firstDedupAux seen l ↔ a ∈ l ∧ a ∉ seen := by
  intro l
  induction l with
  | nil => intro seen; simp [firstDedupAux]
  | cons x xs ih =>
    intro seen
    by_cases hx : x ∈ seen
    · rw [firstDedupAux, if_pos hx, ih]
      constructor
      · rintro ⟨h1, h2⟩
        exact ⟨List.mem_cons_of_mem x h1, h2⟩
      · rintro ⟨h1, h2⟩
        rcases List.mem_cons.mp h1 with h3 | h3
        · exact absurd (h3 ▸ hx) h2
        · exact ⟨h3, h2⟩
    · rw [firstDedupAux, if_neg hx]
      constructor
      · intro hmem
        rcases List.mem_cons.mp hmem with h1 | h1
        · exact ⟨List.mem_cons.mpr (Or.inl h1), by rw [h1]; exact hx⟩
        · obtain ⟨h2, h3⟩ := (ih (x :: seen)).mp h1
          exact ⟨List.mem_cons.mpr (Or.inr h2),
                 fun hs => h3 (List.mem_cons_of_mem x hs)⟩
      · rintro ⟨h1, h2⟩
        rcases List.mem_cons.mp h1 with h3 | h3
        · exact List.mem_cons.mpr (Or.inl h3)
        · by_cases hax : a = x
          · exact List.mem_cons.mpr (Or.inl hax)
          · refine List.mem_cons.mpr (Or.inr ((ih (x :: seen)).mpr ⟨h3, ?_⟩))
            intro hs
            rcases List.mem_cons.mp hs with h4 | h4
            · exact hax h4
            · exact h2 h4

lemma worldwide_mem_names (rows : List Row) :
    WORLDWIDE ∈ getCountryNamesArray rows := by
  unfold getCountryNamesArray firstDedup
  rw [mem_firstDedupAux]
  simp

lemma findCountry_mkmap (names : List String) (ts : Option String) (n : String)
    (hn : n ∈ names) :
    findCountry (names.map (fun k => (k, mkCountry k ts))) n = some (mkCountry n ts) := by
  induction names with
  | nil => simp at hn
  | cons x xs ih =>
    simp only [List.map_cons, findCountry]
    by_cases hx : x = n
    · rw [if_pos hx, hx]
    · rw [if_neg hx]
      rcases List.mem_cons.mp hn with h1 | h1
      · exact absurd h1.symm hx
      · exact ih h1

lemma sumCounters_mkmap (names : List String) (ts : Option String) :
    sumCounters (names.map (fun k => (k, mkCountry k ts))) = ⟨0, 0, 0, 0⟩ := by
  induction names with
  | nil => rfl
  | cons x xs ih =>
    simp only [List.map_cons, sumCounters]
    rw [ih]
    split
    · rfl
    · ext <;> simp [mkCountry]

lemma nonneg_mkmap (names : List String) (ts : Option String) :
    ∀ p ∈ names.map (fun k => (k, mkCountry k ts)), nonnegCounters p.2 := by
  intro p hp
  rcases List.mem_map.mp hp with ⟨x, _, hx⟩
  subst hx
  exact ⟨le_refl 0, le_refl 0, le_refl 0, le_refl 0⟩

lemma createCountryObjects_ok {rows : List Row} {m0 : CountryMap}
    (h : createCountryObjects rows = .ok m0) :
    ∃ ts, m0 = (getCountryNamesArray rows).map (fun n => (n, mkCountry n ts)) := by
  unfold createCountryObjects at h
  cases hts : getLastUpdatedBySourceTime rows with
  | error e => rw [hts] at h; simp at h
  | ok ts =>
    rw [hts] at h
    simp only [Except.ok.injEq] at h
    exact ⟨ts, h.symm⟩

lemma listTotals_nonneg (rows : List Row) :
    0 ≤ (listTotals rows).deaths ∧ 0 ≤ (listTotals rows).confirmed ∧
    0 ≤ (listTotals rows).active ∧ 0 ≤ (listTotals rows).recovered := by
  induction rows with
  | nil => exact ⟨le_refl 0, le_refl 0, le_refl 0, le_refl 0⟩
  | cons row rest ih =>
    have h1 := getCaseCount_nonneg row COL_DEATHS
    have h2 := getCaseCount_nonneg row COL_CONFIRMED
    have h3 := getCaseCount_nonneg row COL_ACTIVE
    have h4 := getCaseCount_nonneg row COL_RECOVERED
    obtain ⟨i1, i2, i3, i4⟩ := ih
    have hstep : listTotals (row :: rest) = (rowTotals row).add (listTotals rest) := rfl
    rw [hstep]
    simp only [Totals.add]
    refine ⟨?_, ?_, ?_, ?_⟩ <;> simp only [rowTotals] <;> omega

lemma populateRows_ok (rows : List Row) :
    ∀ m t m2 t2, populateRows m t rows = .ok (m2, t2) →
      t2 = t.add (listTotals rows) ∧
      ((∀ r ∈ rows, rowCountryKey r ≠ WORLDWIDE) →
        sumCounters m2 = (sumCounters m).add (listTotals rows) ∧
        findCountry m2 WORLDWIDE = findCountry m WORLDWIDE) := by
  induction rows with
  | nil =>
    intro m t m2 t2 h
    simp only [populateRows, Except.ok.injEq, Prod.mk.injEq] at h
    obtain ⟨hm, ht⟩ := h
    subst hm ht
    refine ⟨by ext <;> simp [Totals.add, listTotals],
            fun _ => ⟨by ext <;> simp [Totals.add, listTotals], rfl⟩⟩
  | cons row rest ih =>
    intro m t m2 t2 h
    simp only [populateRows] at h
    cases hup : updateCountry m (rowCountryKey row) (getCaseCount row COL_DEATHS)
        (getCaseCount row COL_CONFIRMED) (getCaseCount row COL_ACTIVE)
        (getCaseCount row COL_RECOVERED) with
    | none => rw [hup] at h; simp at h
    | some m3 =>
      rw [hup] at h
      obtain ⟨ht2, hsum⟩ := ih m3 _ m2 t2 h
      constructor
      · rw [ht2]
        ext <;> simp [Totals.add, listTotals, rowTotals] <;> ring
      · intro hww
        have hhead : rowCountryKey row ≠ WORLDWIDE := hww row (by simp)
        have hrest : ∀ r ∈ rest, rowCountryKey r ≠ WORLDWIDE :=
          fun r hr => hww r (by simp [hr])
        obtain ⟨hs, hf⟩ := hsum hrest
        constructor
        · rw [hs, updateCountry_sum_ne hup hhead]
          ext <;> simp [Totals.add, listTotals, rowTotals] <;> ring
        · rw [hf, updateCountry_find_other hup (fun hz => hhead hz.symm)]

lemma populateRows_nonneg (rows : List Row) :
    ∀ m t m2 t2, populateRows m t rows = .ok (m2, t2) →
      (∀ p ∈ m, nonnegCounters p.2) → ∀ p ∈ m2, nonnegCounters p.2 := by
  induction rows with
  | nil =>
    intro m t m2 t2 h hm
    simp only [populateRows, Except.ok.injEq, Prod.mk.injEq] at h
    exact h.1 ▸ hm
  | cons row rest ih =>
    intro m t m2 t2 h hm
    simp only [populateRows] at h
    cases hup : updateCountry m (rowCountryKey row) (getCaseCount row COL_DEATHS)
        (getCaseCount row COL_CONFIRMED) (getCaseCount row COL_ACTIVE)
        (getCaseCount row COL_RECOVERED) with
    | none => rw [hup] at h; simp at h
    | some m3 =>
      rw [hup] at h
      have hm3 : ∀ p ∈ m3, nonnegCounters p.2 :=
        updateCountry_nonneg hup hm (getCaseCount_nonneg row COL_DEATHS)
          (getCaseCount_nonneg row COL_CONFIRMED) (getCaseCount_nonneg row COL_ACTIVE)
          (getCaseCount_nonneg row COL_RECOVERED)
      exact ih m3 _ m2 t2 h hm3

lemma populateCountryObjects_ok {m0 : CountryMap} {rows : List Row} {m : CountryMap}
    (h : populateCountryObjects m0 rows = .ok m) :
    ∃ m2 t, populateRows m0 ⟨0, 0, 0, 0⟩ rows = .ok (m2, t) ∧
      updateCountry m2 WORLDWIDE t.deaths t.confirmed t.active t.recovered = some m := by
  unfold populateCountryObjects at h
  split at h
  · simp at h
  · rename_i m2 t hpr
    split at h
    · simp at h
    · rename_i m3 hup
      simp only [Except.ok.injEq] at h
      exact ⟨m2, t, hpr, h ▸ hup⟩

lemma deleteFile_writeFile_nil (n : String) :
    deleteFile (writeFile [] n) n = [] := by
  simp [writeFile, deleteFile]

lemma probeNames_succ (today i n : Nat) :
    probeNames today i (n + 1) = csvFileNameFor today i :: probeNames today (i + 1) n :=
  rfl

lemma downloadLoop_exhaust (fetch : Nat → Option String) (today : Nat) :
    ∀ rem i probed attempts, (∀ k, i ≤ k → k < i + rem → fetch k = none) →
      downloadLoop fetch today i rem [] probed attempts =
        ⟨.exhausted, [], probed ++ probeNames today i rem, attempts + rem⟩ := by
  intro rem
  induction rem with
  | zero =>
    intro i probed attempts _
    simp [downloadLoop, probeNames]
  | succ rem ih =>
    intro i probed attempts h
    have hfi : fetch i = none := h i le_rfl (by omega)
    simp only [downloadLoop, hfi]
    rw [deleteFile_writeFile_nil,
        ih (i + 1) (probed ++ [csvFileNameFor today i]) (attempts + 1)
          (fun k hk1 hk2 => h k (by omega) (by omega))]
    have hatt : attempts + 1 + rem = attempts + (rem + 1) := by omega
    rw [hatt, probeNames_succ]
    simp

lemma downloadLoop_success (fetch : Nat → Option String) (today : Nat) (c : String) :
    ∀ rem i probed attempts j, i ≤ j → j < i + rem → fetch j = some c →
      (∀ k, i ≤ k → k < j → fetch k = none) →
      downloadLoop fetch today i rem [] probed attempts =
        ⟨.success (csvFileNameFor today j) c, [csvFileNameFor today j],
         probed ++ probeNames today i (j - i + 1), attempts + (j - i) + 1⟩ := by
  intro rem
  induction rem with
  | zero =>
    intro i probed attempts j h1 h2 hc hfail
    exact absurd h2 (by omega)
  | succ rem ih =>
    intro i probed attempts j h1 h2 hc hfail
    rcases Nat.eq_or_lt_of_le h1 with heq | hlt
    · subst heq
      simp only [downloadLoop, hc]
      have hii : i - i + 1 = 1 := by omega
      have hia : attempts + (i - i) + 1 = attempts + 1 := by omega
      rw [hii, hia]
      simp [writeFile, probeNames]
    · have hfi : fetch i = none := hfail i le_rfl hlt
      simp only [downloadLoop, hfi]
      rw [deleteFile_writeFile_nil,
          ih (i + 1) (probed ++ [csvFileNameFor today i]) (attempts + 1) j
            (by omega) (by omega) hc (fun k hk1 hk2 => hfail k (by omega) hk2)]
      have hj : j - i + 1 = (j - (i + 1) + 1) + 1 := by omega
      have hat : attempts + 1 + (j - (i + 1)) + 1 = attempts + (j - i) + 1 := by omega
      rw [hj, hat, probeNames_succ]
      simp [probeNames]

lemma downloadLoop_attempts_le (fetch : Nat → Option String) (today : Nat) :
    ∀ rem i staged probed attempts,
      (downloadLoop fetch today i rem staged probed attempts).attempts ≤ attempts + rem := by
  intro rem
  induction rem with
  | zero => intro i staged probed attempts; simp [downloadLoop]
  | succ rem ih =>
    intro i staged probed attempts
    simp only [downloadLoop]
    cases hf : fetch i with
    | some content =>
      dsimp only
      omega
    | none =>
      dsimp only
      exact le_trans (ih (i + 1) _ _ (attempts + 1)) (by omega)

lemma downloadLoop_staged (fetch : Nat → Option String) (today : Nat) :
    ∀ rem i probed attempts,
      ((downloadLoop fetch today i rem [] probed attempts).outcome = .exhausted →
        (downloadLoop fetch today i rem [] probed attempts).staged = []) ∧
      (∀ n c, (downloadLoop fetch today i rem [] probed attempts).outcome = .success n c →
        (downloadLoop fetch today i rem [] probed attempts).staged = [n]) := by
  intro rem
  induction rem with
  | zero =>
    intro i probed attempts
    refine ⟨fun _ => rfl, fun n c h => ?_⟩
    simp [downloadLoop] at h
  | succ rem ih =>
    intro i probed attempts
    simp only [downloadLoop]
    cases hf : fetch i with
    | some content =>
      refine ⟨fun h => ?_, fun n c h => ?_⟩
      · simp at h
      · simp only [LocateOutcome.success.injEq] at h
        rw [← h.1]
        simp [writeFile]
    | none =>
      rw [deleteFile_writeFile_nil]
      exact ih (i + 1) (probed ++ [csvFileNameFor today i]) (attempts + 1)

/-- C1 (amended): for every row sequence in which no row's country field
is the worldwide sentinel name itself, after aggregation completes each of
the four counters of the "Worldwide" accumulator equals the sum of that
counter across all non-worldwide per-country accumulators. -/
theorem claim1_worldwide_sum (rows : List Row) (m0 m : CountryMap)
    (hww : ∀ r ∈ rows, rowCountryKey r ≠ WORLDWIDE)
    (h0 : createCountryObjects rows = .ok m0)
    (h1 : populateCountryObjects m0 rows = .ok m) :
    ∃ w, findCountry m WORLDWIDE = some w ∧
      w.confirmed = (sumCounters m).confirmed ∧
      w.deaths = (sumCounters m).deaths ∧
      w.recovered = (sumCounters m).recovered ∧
      w.active = (sumCounters m).active := by
  obtain ⟨ts, hm0⟩ := createCountryObjects_ok h0
  obtain ⟨m2, t, hpr, hup⟩ := populateCountryObjects_ok h1
  obtain ⟨ht, hsum⟩ := populateRows_ok rows m0 ⟨0, 0, 0, 0⟩ m2 t hpr
  obtain ⟨hs2, hf2⟩ := hsum hww
  have hfind0 : findCountry m0 WORLDWIDE = some (mkCountry WORLDWIDE ts) := by
    rw [hm0]
    exact findCountry_mkmap _ ts _ (worldwide_mem_names rows)
  have hsum0 : sumCounters m0 = ⟨0, 0, 0, 0⟩ := by
    rw [hm0]
    exact sumCounters_mkmap _ ts
  have hfind2 : findCountry m2 WORLDWIDE = some (mkCountry WORLDWIDE ts) := by
    rw [hf2, hfind0]
  have hfindm := updateCountry_find_self hup
  rw [hfind2] at hfindm
  have hsm : sumCounters m = sumCounters m2 := updateCountry_sum_ww hup
  refine ⟨_, hfindm, ?_, ?_, ?_, ?_⟩ <;>
    · rw [hsm, hs2, hsum0, ht]
      simp [mkCountry, Country.increment, Totals.add]

/-- Witness for C1 on a concrete ordinary one-row input. -/
theorem claim1_witness :
    ∃ w, findCountry mW1 WORLDWIDE = some w ∧
      w.confirmed = (sumCounters mW1).confirmed ∧
      w.deaths = (sumCounters mW1).deaths ∧
      w.recovered = (sumCounters mW1).recovered ∧
      w.active = (sumCounters mW1).active :=
  claim1_worldwide_sum rowsW1 mW0 mW1 (by decide) rfl rfl

/-- C1 as stated is false on the code: for a one-row input whose country
field is "Worldwide" itself, the row is added to the Worldwide accumulator
directly and then re-added through the running totals, so Worldwide
confirmed ends at 10 while the sum over non-worldwide accumulators is 0. -/
theorem claim1_counterexample :
    createCountryObjects rowsWW = .ok mWW0 ∧
    populateCountryObjects mWW0 rowsWW = .ok mWW ∧
    (findCountry mWW WORLDWIDE).map Country.confirmed = some 10 ∧
    (sumCounters mWW).confirmed = 0 ∧
    (findCountry mWW WORLDWIDE).map Country.confirmed ≠
      some ((sumCounters mWW).confirmed) :=
  ⟨rfl, rfl, by decide, by decide, by decide⟩

/-- C2: per field, the cleaned value is 0 when parsing fails (non-numeric
or missing), the absolute value when the parsed integer is negative, and
the parsed integer otherwise; consequently every accumulator counter after
aggregation is non-negative. -/
theorem claim2_numeric_cleaning :
    (∀ row col, (rowLookup row col).bind jsParseInt = none →
      getCaseCount row col = 0) ∧
    (∀ row col v, (rowLookup row col).bind jsParseInt = some v → v < 0 →
      getCaseCount row col = -v) ∧
    (∀ row col v, (rowLookup row col).bind jsParseInt = some v → 0 ≤ v →
      getCaseCount row col = v) ∧
    (∀ rows m0 m, createCountryObjects rows = .ok m0 →
      populateCountryObjects m0 rows = .ok m → ∀ p ∈ m, nonnegCounters p.2) := by
  refine ⟨getCaseCount_of_parse_none, ?_, ?_, ?_⟩
  · intro row col v hb hneg
    rw [getCaseCount_of_parse_some row col v hb, if_pos hneg]
  · intro row col v hb hnn
    rw [getCaseCount_of_parse_some row col v hb, if_neg (by omega)]
  · intro rows m0 m h0 h1
    obtain ⟨ts, hm0⟩ := createCountryObjects_ok h0
    obtain ⟨m2, t, hpr, hup⟩ := populateCountryObjects_ok h1
    have hnn0 : ∀ p ∈ m0, nonnegCounters p.2 := hm0 ▸ nonneg_mkmap _ ts
    have hnn2 : ∀ p ∈ m2, nonnegCounters p.2 :=
      populateRows_nonneg rows m0 _ m2 t hpr hnn0
    obtain ⟨ht, _⟩ := populateRows_ok rows m0 ⟨0, 0, 0, 0⟩ m2 t hpr
    obtain ⟨l1, l2, l3, l4⟩ := listTotals_nonneg rows
    have htd : 0 ≤ t.deaths := by rw [ht]; simp only [Totals.add]; omega
    have htc : 0 ≤ t.confirmed := by rw [ht]; simp only [Totals.add]; omega
    have hta : 0 ≤ t.active := by rw [ht]; simp only [Totals.add]; omega
    have htr : 0 ≤ t.recovered := by rw [ht]; simp only [Totals.add]; omega
    exact updateCountry_nonneg hup hnn2 htd htc hta htr

/-- Witness for C2 on concrete fields and a concrete aggregation run. -/
theorem claim2_witness :
    getCaseCount [(COL_CONFIRMED, "abc")] COL_CONFIRMED = 0 ∧
    getCaseCount [(COL_RECOVERED, "-50")] COL_RECOVERED = 50 ∧
    getCaseCount [(COL_ACTIVE, "45")] COL_ACTIVE = 45 ∧
    nonnegCounters (mW1.headD ("", mkCountry "" none)).2 := by
  refine ⟨?_, ?_, ?_, ?_⟩
  · exact claim2_numeric_cleaning.1 _ _ (by decide)
  · have h := claim2_numeric_cleaning.2.1 [(COL_RECOVERED, "-50")] COL_RECOVERED
      (-50) (by decide) (by decide)
    rw [h]
    decide
  · exact claim2_numeric_cleaning.2.2.1 _ _ 45 (by decide) (by decide)
  · exact claim2_numeric_cleaning.2.2.2 rowsW1 mW0 mW1 rfl rfl _ (by decide)

/-- C3: the end-to-end scenario of spec §8 — two rows for USA and Italy —
yields exactly USA(100, 5, 50, 45), Italy(0, 2, 10, 18) and
Worldwide(100, 7, 60, 63), with counters listed as (confirmed, deaths,
recovered, active). -/
theorem claim3_scenario :
    scenarioAgg = .ok mScenario ∧
    (findCountry mScenario "USA").map counters = some (100, 5, 50, 45) ∧
    (findCountry mScenario "Italy").map counters = some (0, 2, 10, 18) ∧
    (findCountry mScenario WORLDWIDE).map counters = some (100, 7, 60, 63) ∧
    mScenario.map Prod.fst = ["USA", "Italy", WORLDWIDE] :=
  ⟨rfl, by decide, by decide, by decide, by decide⟩

/-- C4 (amended): when all lookback attempts fail, `downloadCsvFile` makes
exactly 90 attempts, leaves no staging artifacts, and returns normally
without surfacing any error; the run then fails at the following
file-read stage, so persistence is never reached. -/
theorem claim4_exhaustion (fetch : Nat → Option String) (today : Nat)
    (h : ∀ k, fetch k = none) :
    downloadCsvFile fetch today = ⟨.exhausted, [], probeNames today 0 tries, tries⟩ ∧
    (initApp fetch today).2.1 = .error .fileNotFound ∧
    (initApp fetch today).2.2 = none ∧
    Stage.persist ∉ (initApp fetch today).1 := by
  have hdl : downloadCsvFile fetch today =
      ⟨.exhausted, [], probeNames today 0 tries, tries⟩ := by
    unfold downloadCsvFile
    rw [downloadLoop_exhaust fetch today tries 0 [] 0 (fun k _ _ => h k)]
    simp
  refine ⟨hdl, ?_, ?_, ?_⟩ <;> simp [initApp, setRowsData, hdl]

/-- Witness for C4 at the all-failing source. -/
theorem claim4_witness :
    downloadCsvFile allFail today0 =
      ⟨.exhausted, [], probeNames today0 0 tries, tries⟩ ∧
    (initApp allFail today0).2.1 = .error .fileNotFound ∧
    (initApp allFail today0).2.2 = none ∧
    Stage.persist ∉ (initApp allFail today0).1 :=
  claim4_exhaustion allFail today0 (fun _ => rfl)

/-- C4 as stated is false on the code: after an exhausted lookback the
locator returns the normal `exhausted` value instead of surfacing an
error, and the failure that eventually aborts the run is the staging
file-read rejection, not a `NotFoundError` raised by the locator. -/
theorem claim4_counterexample :
    (downloadCsvFile allFail today0).outcome = .exhausted ∧
    (initApp allFail today0).2.1 = .error .fileNotFound ∧
    AppError.fileNotFound ≠ AppError.notFound :=
  ⟨rfl, rfl, by decide⟩

/-- C5: the locator probes candidate dates strictly backward one day at a
time starting at the current date (`csvFileNameFor today j` is the
MM-DD-YYYY name of the date `j` days back), makes at most 90 attempts, and
stops at the first successful fetch, returning that candidate's content. -/
theorem claim5_first_success :
    (∀ fetch today j c, j < tries → fetch j = some c →
      (∀ k, k < j → fetch k = none) →
      downloadCsvFile fetch today =
        ⟨.success (csvFileNameFor today j) c, [csvFileNameFor today j],
         probeNames today 0 (j + 1), j + 1⟩) ∧
    (∀ fetch today, (downloadCsvFile fetch today).attempts ≤ tries) := by
  constructor
  · intro fetch today j c hj hc hfail
    unfold downloadCsvFile
    rw [downloadLoop_success fetch today c tries 0 [] 0 j (by omega) (by omega) hc
      (fun k _ hk2 => hfail k hk2)]
    simp
  · intro fetch today
    unfold downloadCsvFile
    have := downloadLoop_attempts_le fetch today tries 0 [] [] 0
    omega

/-- Witness for C5 at a concrete simulated source. -/
theorem claim5_witness :
    downloadCsvFile fetchOnly3 today0 =
      ⟨.success (csvFileNameFor today0 3) "snapshot-3-days-back",
       [csvFileNameFor today0 3], probeNames today0 0 4, 4⟩ ∧
    (downloadCsvFile allFail today0).attempts ≤ tries := by
  constructor
  · exact claim5_first_success.1 fetchOnly3 today0 3 "snapshot-3-days-back"
      (by decide) rfl
      (fun k hk => by
        unfold fetchOnly3
        rw [if_neg (by omega)])
  · exact claim5_first_success.2 allFail today0

/-- C6 (amended): with a source where only the fetch for the date 3 days
back succeeds, the locator returns that date's content after exactly 4
attempts (the current date, then 1, 2 and 3 days back), and the staging
artifacts of the 3 failed attempts have been removed. -/
theorem claim6_three_days_back (fetch : Nat → Option String) (today : Nat)
    (c : String) (h3 : fetch 3 = some c) (hother : ∀ k, k ≠ 3 → fetch k = none) :
    (downloadCsvFile fetch today).outcome = .success (csvFileNameFor today 3) c ∧
    (downloadCsvFile fetch today).attempts = 4 ∧
    (downloadCsvFile fetch today).staged = [csvFileNameFor today 3] ∧
    (downloadCsvFile fetch today).probed = probeNames today 0 4 := by
  unfold downloadCsvFile
  rw [downloadLoop_success fetch today c tries 0 [] 0 3 (by omega) (by decide) h3
    (fun k _ hk2 => hother k (by omega))]
  exact ⟨rfl, rfl, rfl, by simp⟩

/-- Witness for C6 at a concrete simulated source. -/
theorem claim6_witness :
    (downloadCsvFile fetchOnly3 today0).outcome =
      .success (csvFileNameFor today0 3) "snapshot-3-days-back" ∧
    (downloadCsvFile fetchOnly3 today0).attempts = 4 ∧
    (downloadCsvFile fetchOnly3 today0).staged = [csvFileNameFor today0 3] ∧
    (downloadCsvFile fetchOnly3 today0).probed = probeNames today0 0 4 :=
  claim6_three_days_back fetchOnly3 today0 "snapshot-3-days-back" rfl
    (fun k hk => by
      unfold fetchOnly3
      rw [if_neg hk])

/-- C6 as stated is false on the code: when only the date 3 days back
succeeds the run takes 4 fetch attempts (offsets 0, 1, 2, 3), not 3. -/
theorem claim6_counterexample :
    (downloadCsvFile fetchOnly3 today0).outcome =
      .success "01-02-2021.csv" "snapshot-3-days-back" ∧
    (downloadCsvFile fetchOnly3 today0).attempts = 4 ∧
    (downloadCsvFile fetchOnly3 today0).attempts ≠ 3 := by
  decide

/-- C7: every failed fetch attempt unlinks its own staged artifact before
the next (older) candidate day is tried, so the staging area ends empty on
an exhausted run and holds exactly the successful file otherwise. -/
theorem claim7_staging_cleanup (fetch : Nat → Option String) (today : Nat) :
    ((downloadCsvFile fetch today).outcome = .exhausted →
      (downloadCsvFile fetch today).staged = []) ∧
    (∀ n c, (downloadCsvFile fetch today).outcome = .success n c →
      (downloadCsvFile fetch today).staged = [n]) :=
  downloadLoop_staged fetch today tries 0 [] 0

/-- Witness for C7 at the all-failing source. -/
theorem claim7_witness : (downloadCsvFile allFail today0).staged = [] :=
  (claim7_staging_cleanup allFail today0).1 (by decide)

/-- C8: with zero input rows the aggregation stage fails (the
`emptySnapshot` embedding of the `TypeError` thrown by `csvRows[0]`), so
the run aborts instead of producing an all-zero Worldwide-only result or
proceeding to persistence. -/
theorem claim8_empty_rows :
    createCountryObjects ([] : List Row) = .error .emptySnapshot ∧
    (∀ fetch today n c, (downloadCsvFile fetch today).outcome = .success n c →
      parseCsv c = [] →
      (initApp fetch today).2.1 = .error .emptySnapshot ∧
      (initApp fetch today).2.2 = none ∧
      Stage.persist ∉ (initApp fetch today).1) := by
  refine ⟨rfl, ?_⟩
  intro fetch today n c hout hparse
  have hs : setRowsData (downloadCsvFile fetch today) = .ok ([] : List Row) := by
    unfold setRowsData
    rw [hout]
    simp [hparse]
  have hcreate : createCountryObjects ([] : List Row) = .error .emptySnapshot := rfl
  refine ⟨?_, ?_, ?_⟩ <;> simp [initApp, hs, hcreate]

/-- Witness for C8 at a source serving an empty document. -/
theorem claim8_witness :
    (initApp fetchEmptyCsv today0).2.1 = .error .emptySnapshot ∧
    (initApp fetchEmptyCsv today0).2.2 = none ∧
    Stage.persist ∉ (initApp fetchEmptyCsv today0).1 :=
  claim8_empty_rows.2 fetchEmptyCsv today0 (csvFileNameFor today0 0) ""
    (by decide) rfl

/-- C9 (amended): the stages run in the fixed order locate, parse,
aggregate, persist; any parse or aggregate failure aborts the remaining
stages; after an exhausted locate the parse stage still runs and fails on
the missing staging file; in every failing run the persist stage never
executes and nothing is handed to the persistence collaborator. -/
theorem claim9_pipeline_order (fetch : Nat → Option String) (today : Nat) :
    ((initApp fetch today).1 = [Stage.locate, Stage.parse] ∧
       (initApp fetch today).2.2 = none ∨
     (initApp fetch today).1 = [Stage.locate, Stage.parse, Stage.aggregate] ∧
       (initApp fetch today).2.2 = none ∨
     (initApp fetch today).1 =
       [Stage.locate, Stage.parse, Stage.aggregate, Stage.persist]) ∧
    (∀ e, (initApp fetch today).2.1 = .error e →
      (initApp fetch today).2.2 = none ∧ Stage.persist ∉ (initApp fetch today).1) ∧
    ((initApp fetch today).2.2 ≠ none → (initApp fetch today).2.1 = .ok ()) := by
  unfold initApp
  cases hs : setRowsData (downloadCsvFile fetch today) with
  | error e => simp [hs]
  | ok rows =>
    cases hc : createCountryObjects rows with
    | error e => simp [hs, hc]
    | ok m0 =>
      cases hp : populateCountryObjects m0 rows with
      | error e => simp [hs, hc, hp]
      | ok m => simp [hs, hc, hp]

/-- Witness for C9 at a source whose snapshot parses to zero rows. -/
theorem claim9_witness :
    (initApp fetchEmptyCsv today0).2.2 = none ∧
    Stage.persist ∉ (initApp fetchEmptyCsv today0).1 :=
  (claim9_pipeline_order fetchEmptyCsv today0).2.1 AppError.emptySnapshot rfl

/-- C9 as stated is false on the code: with an all-failing source the
locate stage finds nothing, yet the parse stage still runs (and then
fails), instead of every remaining stage being aborted. -/
theorem claim9_counterexample :
    (downloadCsvFile allFail today0).outcome = .exhausted ∧
    (initApp allFail today0).1 = [Stage.locate, Stage.parse] := by
  decide

/-- C10: a count field whose string has a parseable leading integer —
"12abc" or "5.9" — is folded in as that leading integer (12, resp. 5),
not 0; only fields with no parseable leading integer clean to 0. -/
theorem claim10_leading_integer :
    (∀ row col s v, rowLookup row col = some s → jsParseInt s = some v → 0 ≤ v →
      getCaseCount row col = v) ∧
    (∀ row col s, rowLookup row col = some s → jsParseInt s = none →
      getCaseCount row col = 0) ∧
    jsParseInt "12abc" = some 12 ∧
    jsParseInt "5.9" = some 5 ∧
    getCaseCount [(COL_CONFIRMED, "12abc")] COL_CONFIRMED = 12 ∧
    getCaseCount [(COL_CONFIRMED, "5.9")] COL_CONFIRMED = 5 := by
  refine ⟨?_, ?_, by decide, by decide, by decide, by decide⟩
  · intro row col s v hs hv hnn
    have hb : (rowLookup row col).bind jsParseInt = some v := by
      rw [hs]
      simpa using hv
    rw [getCaseCount_of_parse_some row col v hb, if_neg (by omega)]
  · intro row col s hs hv
    apply getCaseCount_of_parse_none
    rw [hs]
    simpa using hv

/-- Witness for C10 at a concrete field with trailing text. -/
theorem claim10_witness :
    getCaseCount [(COL_ACTIVE, "30 cases")] COL_ACTIVE = 30 :=
  claim10_leading_integer.1 [(COL_ACTIVE, "30 cases")] COL_ACTIVE "30 cases" 30
    (by decide) (by decide) (by decide)

end CovidFetcher
